import Mathlib

set_option linter.unusedVariables false

/-
Verification development for the `mm` OpenMP matrix-multiplication benchmark
(src/mm/main.c).  The C code is shallowly embedded: `double` values become
exact rationals (ℚ), a row-major `n×n` matrix buffer becomes a total map
`ℕ → ℚ` indexed by `i*n + j` (mirroring the `MATRIX(m,i,j)` macro), the
process-wide `rand()` stream becomes an explicit stream of naturals with a
cursor, and each C loop nest becomes a structurally recursive function that
runs the same iterations in the same (sequential) order.  OpenMP pragmas and
the profiling calls have no effect on the computed values and are dropped.
-/

namespace MM

/-- `#define NITERATIONS 5` from main.c. -/
def NITERATIONS : ℕ := 5

/-- `#define SPARSE_FACTOR 80` from main.c. -/
def SPARSE_FACTOR : ℕ := 80

/-- Model of the C constant `EXIT_SUCCESS`. -/
def EXIT_SUCCESS : ℕ := 0

/-- Model of the C constant `EXIT_FAILURE`. -/
def EXIT_FAILURE : ℕ := 1

/-- A matrix buffer: the row-major `double` array, `MATRIX(m,i,j) = m[i*n+j]`. -/
abbrev Mat : Type := ℕ → ℚ

/-- The three matrix arguments of a multiplication kernel: operands `a`, `b`
and the accumulator `c` (`c` is the only field any kernel writes). -/
structure MMState where
  a : Mat
  b : Mat
  c : Mat

/-- Store value `v` at flat index `idx` of the accumulator `c`
(the assignment `MATRIX(c,i,j) = v`); `a` and `b` are untouched. -/
def writeC (s : MMState) (idx : ℕ) (v : ℚ) : MMState :=
  { a := s.a, b := s.b, c := fun t => if t = idx then v else s.c t }

/-- Innermost `k` loop of `matrix_mult1`: the first `K` iterations of
`for (k = 0; k < n; k++) MATRIX(c,i,j) += MATRIX(a,i,k)*MATRIX(b,k,j);`. -/
def mult1_kloop (n i j : ℕ) : ℕ → MMState → MMState
  | 0, s => s
  | k+1, s =>
    let p := mult1_kloop n i j k s
    writeC p (i*n+j) (p.c (i*n+j) + p.a (i*n+k) * p.b (k*n+j))

/-- Middle `j` loop of `matrix_mult1`: the first `J` iterations of
`for (j = 0; j < n; j++) { k loop }`. -/
def mult1_jloop (n i : ℕ) : ℕ → MMState → MMState
  | 0, s => s
  | j+1, s => mult1_kloop n i j n (mult1_jloop n i j s)

/-- Outer `i` loop of `matrix_mult1`: the first `I` iterations of
`for (i = 0; i < n; i++) { j loop }`. -/
def mult1_iloop (n : ℕ) : ℕ → MMState → MMState
  | 0, s => s
  | i+1, s => mult1_jloop n i n (mult1_iloop n i s)

/-- `matrix_mult1(c, a, b, n)` (outer-parallel kernel, main.c:47): the value
of the full triple loop nest; the `omp` pragmas and profiling calls do not
affect the stored values and are dropped by the sequential embedding. -/
def matrix_mult1 (n : ℕ) (s : MMState) : MMState := mult1_iloop n n s

/-- Innermost `k` loop of `matrix_mult2` (same statement as `matrix_mult1`). -/
def mult2_kloop (n i j : ℕ) : ℕ → MMState → MMState
  | 0, s => s
  | k+1, s =>
    let p := mult2_kloop n i j k s
    writeC p (i*n+j) (p.c (i*n+j) + p.a (i*n+k) * p.b (k*n+j))

/-- Middle `j` loop of `matrix_mult2`. -/
def mult2_jloop (n i : ℕ) : ℕ → MMState → MMState
  | 0, s => s
  | j+1, s => mult2_kloop n i j n (mult2_jloop n i j s)

/-- Outer `i` loop of `matrix_mult2`. -/
def mult2_iloop (n : ℕ) : ℕ → MMState → MMState
  | 0, s => s
  | i+1, s => mult2_jloop n i n (mult2_iloop n i s)

/-- `matrix_mult2(c, a, b, n)` (inner-parallel kernel, main.c:78): the loop
nest is identical to `matrix_mult1`; only the position of the parallel
region differs, which the sequential embedding drops. -/
def matrix_mult2 (n : ℕ) (s : MMState) : MMState := mult2_iloop n n s

/-- Innermost `k` loop of `sparsematrix_mult`: the first `K` iterations of
`for (k...) { if (MATRIX(a,i,k) != 0) MATRIX(c,i,j) += MATRIX(a,i,k)*MATRIX(b,k,j); }`. -/
def sparse_kloop (n i j : ℕ) : ℕ → MMState → MMState
  | 0, s => s
  | k+1, s =>
    let p := sparse_kloop n i j k s
    if p.a (i*n+k) ≠ 0 then
      writeC p (i*n+j) (p.c (i*n+j) + p.a (i*n+k) * p.b (k*n+j))
    else p

/-- Middle `j` loop of `sparsematrix_mult`. -/
def sparse_jloop (n i : ℕ) : ℕ → MMState → MMState
  | 0, s => s
  | j+1, s => sparse_kloop n i j n (sparse_jloop n i j s)

/-- Outer `i` loop of `sparsematrix_mult`. -/
def sparse_iloop (n : ℕ) : ℕ → MMState → MMState
  | 0, s => s
  | i+1, s => sparse_jloop n i n (sparse_iloop n i s)

/-- `sparsematrix_mult(c, a, b, n)` (sparse kernel, main.c:108): skips the
multiply-accumulate whenever `a[i][k] == 0`; the compile-time selected
scheduling pragma does not affect the stored values. -/
def sparsematrix_mult (n : ℕ) (s : MMState) : MMState := sparse_iloop n n s

/-- The dense per-cell contribution `Σ_{k<n} a[i][k]*b[k][j]` that one kernel
call adds to `c[i][j]`. -/
def dotContrib (a b : Mat) (n i j : ℕ) : ℚ :=
  (Finset.range n).sum fun k => a (i*n+k) * b (k*n+j)

/-- The guarded per-cell contribution actually summed by `sparsematrix_mult`:
terms with `a[i][k] == 0` are skipped. -/
def dotContribSp (a b : Mat) (n i j : ℕ) : ℚ :=
  (Finset.range n).sum fun k => if a (i*n+k) ≠ 0 then a (i*n+k) * b (k*n+j) else 0

/-- The process-wide pseudo-random stream behind `rand()`: `g` is the
(deterministic) sequence of values the generator will produce and `pos` is
how many draws have been consumed so far. -/
structure RandState where
  g : ℕ → ℕ
  pos : ℕ

/-- One call to `rand()`: returns the next value of the stream and advances
the cursor. -/
def rand (r : RandState) : ℕ × RandState := (r.g r.pos, { g := r.g, pos := r.pos + 1 })

/-- `matrix_create(n)` (main.c:154): `malloc` + `memset(m, 0, ...)`, i.e. an
all-zero buffer (the model assumes the allocation succeeds, as the C code
aborts otherwise). -/
def matrix_create (n : ℕ) : Mat := fun _ => 0

/-- `sparsematrix_create(n)` (main.c:180): identical to `matrix_create`. -/
def sparsematrix_create (n : ℕ) : Mat := fun _ => 0

/-- Inner `j` loop of `matrix_init`: the first `J` iterations of
`for (j = 0; j < n; j++) MATRIX(m,i,j) = rand()/10.0;` on row `i`. -/
def minit_row (n i : ℕ) : ℕ → Mat × RandState → Mat × RandState
  | 0, mr => mr
  | j+1, mr =>
    let p := minit_row n i j mr
    let d := rand p.2
    (fun t => if t = i*n+j then (d.1 : ℚ)/10 else p.1 t, d.2)

/-- Outer loop of `matrix_init`: processes `cnt` consecutive rows starting at
row `i` (the C loop `for (i = 0; i < n; i++)` is `minit_rows n 0 n`). -/
def minit_rows (n : ℕ) : ℕ → ℕ → Mat × RandState → Mat × RandState
  | _, 0, mr => mr
  | i, cnt+1, mr => minit_rows n (i+1) cnt (minit_row n i n mr)

/-- `matrix_init(m, n)` (main.c:166): fills every cell of the `n×n` matrix
with `rand()/10.0`, row-major order, one draw per cell. -/
def matrix_init (n : ℕ) (mr : Mat × RandState) : Mat × RandState :=
  minit_rows n 0 n mr

/-- Inner `j` loop of `sparsematrix_init` on row `i` (main.c:196-207): for a
cell in a row with `i > n/2`, first draw `rand()%100`; if the draw is
`<= SPARSE_FACTOR` the cell is set to `0.0` (the `zero` flag) and no further
draw happens, otherwise the cell gets a fresh `rand()/10.0`.  For a row with
`i <= n/2` the cell gets `rand()/10.0` exactly as in `matrix_init`. -/
def sinit_row (n i : ℕ) : ℕ → Mat × RandState → Mat × RandState
  | 0, mr => mr
  | j+1, mr =>
    let p := sinit_row n i j mr
    if n/2 < i then
      let d := rand p.2
      if d.1 % 100 ≤ SPARSE_FACTOR then
        (fun t => if t = i*n+j then (0:ℚ) else p.1 t, d.2)
      else
        let v := rand d.2
        (fun t => if t = i*n+j then (v.1 : ℚ)/10 else p.1 t, v.2)
    else
      let d := rand p.2
      (fun t => if t = i*n+j then (d.1 : ℚ)/10 else p.1 t, d.2)

/-- Outer loop of `sparsematrix_init`: processes `cnt` consecutive rows
starting at row `i`. -/
def sinit_rows (n : ℕ) : ℕ → ℕ → Mat × RandState → Mat × RandState
  | _, 0, mr => mr
  | i, cnt+1, mr => sinit_rows n (i+1) cnt (sinit_row n i n mr)

/-- `sparsematrix_init(m, n)` (main.c:192). -/
def sparsematrix_init (n : ℕ) (mr : Mat × RandState) : Mat × RandState :=
  sinit_rows n 0 n mr

/-- A benchmark-observable event of the driver: a kernel invocation, or one
`printf("<label>: %lf\n", elapsed)` timing line (the elapsed wall-clock value
itself is real time and is not modelled; the label and the iteration index
are). -/
inductive Event
  | invoke (lbl : String) (it : ℕ)
  | printLine (lbl : String) (it : ℕ)
deriving DecidableEq

/-- One benchmark loop of `main` (e.g. main.c:242-249): the first `cnt`
iterations of `for (it = 0; it <= NITERATIONS; it++) { start; kernel; end;
if (it) printf("<label>: %lf\n", end - start); }`.  Returns the final matrix
state and the chronological list of events. -/
def benchLoop (kernel : MMState → MMState) (lbl : String) :
    ℕ → MMState → MMState × List Event
  | 0, s => (s, [])
  | it+1, s =>
    let p := benchLoop kernel lbl it s
    let s2 := kernel p.1
    (s2, p.2 ++ [Event.invoke lbl it] ++
      (if it ≠ 0 then [Event.printLine lbl it] else []))

/-- The six matrices allocated and initialized by `main` (main.c:234-239). -/
structure DriverMats where
  a1 : Mat
  b : Mat
  c1 : Mat
  c2 : Mat
  c3 : Mat
  a2 : Mat

/-- The matrix setup phase of `main` (main.c:234-239), in source order:
`a1`, `b`, `c1`, `c2`, `c3` via `matrix_create` + `matrix_init`, then `a2`
via `sparsematrix_create` + `sparsematrix_init`, all consuming the single
`rand()` stream in that order. -/
def main_setup (n : ℕ) (r : RandState) : DriverMats × RandState :=
  let pa1 := matrix_init n (matrix_create n, r)
  let pb := matrix_init n (matrix_create n, pa1.2)
  let pc1 := matrix_init n (matrix_create n, pb.2)
  let pc2 := matrix_init n (matrix_create n, pc1.2)
  let pc3 := matrix_init n (matrix_create n, pc2.2)
  let pa2 := sparsematrix_init n (sparsematrix_create n, pc3.2)
  ({ a1 := pa1.1, b := pb.1, c1 := pc1.1, c2 := pc2.1, c3 := pc3.1, a2 := pa2.1 }, pa2.2)

/-- The matrix state entering benchmark 1: `matrix_mult1(c1, a1, b, n)`. -/
def bench1Start (n : ℕ) (r : RandState) : MMState :=
  { a := (main_setup n r).1.a1, b := (main_setup n r).1.b, c := (main_setup n r).1.c1 }

/-- The matrix state entering benchmark 2: `matrix_mult2(c2, a1, b, n)`. -/
def bench2Start (n : ℕ) (r : RandState) : MMState :=
  { a := (main_setup n r).1.a1, b := (main_setup n r).1.b, c := (main_setup n r).1.c2 }

/-- The matrix state entering benchmark 3: `sparsematrix_mult(c3, a2, b, n)`. -/
def bench3Start (n : ℕ) (r : RandState) : MMState :=
  { a := (main_setup n r).1.a2, b := (main_setup n r).1.b, c := (main_setup n r).1.c3 }

/-- The benchmarking phase of `main` (main.c:241-269 and the final
`return EXIT_FAILURE` at main.c:279): the three benchmark loops in the fixed
order mult1, mult2, sparsemult, each run `NITERATIONS + 1` times; the result
is the chronological event list and the process exit code. -/
def main_run (n : ℕ) (r : RandState) : List Event × ℕ :=
  let b1 := benchLoop (matrix_mult1 n) "mult1" (NITERATIONS+1) (bench1Start n r)
  let b2 := benchLoop (matrix_mult2 n) "mult2" (NITERATIONS+1) (bench2Start n r)
  let b3 := benchLoop (sparsematrix_mult n) "sparsemult" (NITERATIONS+1) (bench3Start n r)
  (b1.2 ++ b2.2 ++ b3.2, EXIT_FAILURE)

/-- The `(label, iteration)` pairs of the timing lines printed, in order. -/
def printsOf (evs : List Event) : List (String × ℕ) :=
  evs.filterMap fun e =>
    match e with
    | Event.printLine l it => some (l, it)
    | Event.invoke _ _ => none

/-- The `(label, iteration)` pairs of the kernel invocations, in order. -/
def invokesOf (evs : List Event) : List (String × ℕ) :=
  evs.filterMap fun e =>
    match e with
    | Event.invoke l it => some (l, it)
    | Event.printLine _ _ => none

/-- Is the byte a character `isspace` accepts (space, \t, \n, \v, \f, \r)? -/
def isSpaceByte (c : ℕ) : Bool := c = 32 || c = 9 || c = 10 || c = 11 || c = 12 || c = 13

/-- Is the byte an ASCII decimal digit? -/
def isDigitByte (c : ℕ) : Bool := 48 ≤ c && c ≤ 57

/-- Digit-accumulation loop of C `atoi`: consume leading digits, stop at the
first non-digit. -/
def atoiLoop : List ℕ → ℤ → ℤ
  | [], acc => acc
  | c :: rest, acc =>
    if isDigitByte c then atoiLoop rest (acc * 10 + ((c - 48 : ℕ) : ℤ)) else acc

/-- Skip the leading whitespace C `atoi` ignores. -/
def skipSpaces : List ℕ → List ℕ
  | [] => []
  | c :: rest => if isSpaceByte c then skipSpaces rest else c :: rest

/-- C `atoi` on a byte string: optional whitespace, optional sign (`-` is
byte 45, `+` is byte 43), then leading digits; `0` when no digit is found. -/
def atoi (s : List ℕ) : ℤ :=
  match skipSpaces s with
  | [] => 0
  | c :: rest =>
    if c = 45 then - atoiLoop rest 0
    else if c = 43 then atoiLoop rest 0
    else atoiLoop (c :: rest) 0

/-- How a run of the `mm` process ends. -/
inductive MainResult
  | usageExit
  | assertAbort
  | finished (events : List Event) (code : ℕ)
deriving DecidableEq

/-- The normal exit status of each outcome: `usage()` calls
`exit(EXIT_SUCCESS)`; a failed `assert` raises `SIGABRT`, so the process does
not exit normally at all (`none`); the benchmark path returns its code. -/
def exitStatus : MainResult → Option ℕ
  | MainResult.usageExit => some EXIT_SUCCESS
  | MainResult.assertAbort => none
  | MainResult.finished _ code => some code

/-- `main(argc, argv)` (main.c:211): with no argument (`argc < 2`), print
usage and `exit(EXIT_SUCCESS)`; otherwise `n = atoi(argv[1])`,
`assert(n > 0)` (abort on failure), then run the benchmarks. -/
def mainProc (argv1 : Option (List ℕ)) (r : RandState) : MainResult :=
  match argv1 with
  | none => MainResult.usageExit
  | some arg =>
    let n := atoi arg
    if 0 < n then MainResult.finished (main_run n.toNat r).1 (main_run n.toNat r).2
    else MainResult.assertAbort

/-- A concrete operand/accumulator state used to instantiate theorems. -/
def wS : MMState := { a := fun _ => 2, b := fun _ => 3, c := fun _ => 5 }

/-- A concrete operand state with a zeroed accumulator. -/
def wSz : MMState := { a := fun _ => 2, b := fun _ => 3, c := fun _ => 0 }

/-- A concrete random stream (all draws are 1) used to instantiate theorems. -/
def wR : RandState := { g := fun _ => 1, pos := 0 }

/-- A concrete zero matrix paired with a stream whose draws are all 80, so
the sparse-row decision draw has residue 80. -/
def wMR80 : Mat × RandState := (fun _ => 0, { g := fun _ => 80, pos := 0 })

/-- A concrete zero matrix paired with the all-ones stream. -/
def wMR1 : Mat × RandState := (fun _ => 0, wR)

/-! Pointwise characterization of the three kernels. -/

theorem mult1_kloop_ab (n i j K : ℕ) (s : MMState) :
    (mult1_kloop n i j K s).a = s.a ∧ (mult1_kloop n i j K s).b = s.b := by
  induction K with
  | zero => exact ⟨rfl, rfl⟩
  | succ K ih => simpa [mult1_kloop, writeC] using ih

theorem mult1_jloop_ab (n i J : ℕ) (s : MMState) :
    (mult1_jloop n i J s).a = s.a ∧ (mult1_jloop n i J s).b = s.b := by
  induction J with
  | zero => exact ⟨rfl, rfl⟩
  | succ J ih =>
    have h2 := mult1_kloop_ab n i J n (mult1_jloop n i J s)
    rw [mult1_jloop]
    exact ⟨h2.1.trans ih.1, h2.2.trans ih.2⟩

theorem mult1_iloop_ab (n I : ℕ) (s : MMState) :
    (mult1_iloop n I s).a = s.a ∧ (mult1_iloop n I s).b = s.b := by
  induction I with
  | zero => exact ⟨rfl, rfl⟩
  | succ I ih =>
    have h2 := mult1_jloop_ab n I n (mult1_iloop n I s)
    rw [mult1_iloop]
    exact ⟨h2.1.trans ih.1, h2.2.trans ih.2⟩

theorem mult1_kloop_c (n i j K : ℕ) (s : MMState) (t : ℕ) :
    (mult1_kloop n i j K s).c t =
      if t = i*n+j then
        s.c t + (Finset.range K).sum (fun k => s.a (i*n+k) * s.b (k*n+j))
      else s.c t := by
  induction K generalizing t with
  | zero => simp [mult1_kloop]
  | succ K ih =>
    have hab := mult1_kloop_ab n i j K s
    simp only [mult1_kloop, writeC]
    rw [hab.1, hab.2]
    by_cases h : t = i*n+j
    · subst h
      rw [if_pos rfl, if_pos rfl, ih, if_pos rfl, Finset.sum_range_succ, add_assoc]
    · rw [if_neg h, if_neg h, ih, if_neg h]

theorem mult1_jloop_c (n i J : ℕ) (s : MMState) (t : ℕ) :
    (mult1_jloop n i J s).c t =
      if i*n ≤ t ∧ t < i*n + J then
        s.c t + dotContrib s.a s.b n i (t - i*n)
      else s.c t := by
  induction J generalizing t with
  | zero =>
    rw [if_neg (fun h => absurd h.2 (Nat.not_lt.mpr h.1))]
    rfl
  | succ J ih =>
    have hab := mult1_jloop_ab n i J s
    rw [mult1_jloop, mult1_kloop_c, hab.1, hab.2]
    by_cases ht : t = i*n + J
    · subst ht
      rw [if_pos rfl, ih, if_neg (fun h => Nat.lt_irrefl _ h.2),
        if_pos (show i*n ≤ i*n+J ∧ i*n+J < i*n+(J+1) from ⟨Nat.le_add_right _ _, by omega⟩),
        Nat.add_sub_cancel_left]
      rfl
    · rw [if_neg ht, ih]
      by_cases h2 : i*n ≤ t ∧ t < i*n + J
      · rw [if_pos h2, if_pos ⟨h2.1, by omega⟩]
      · rw [if_neg h2, if_neg (by omega)]

theorem row_window (n I i j : ℕ) (hj : j < n) :
    (I*n ≤ i*n+j ∧ i*n+j < I*n + n) ↔ i = I := by
  constructor
  · rintro ⟨h1, h2⟩
    rcases Nat.lt_trichotomy i I with h | h | h
    · exfalso
      have hlt : i*n + j < I*n := by
        calc i*n + j < i*n + n := Nat.add_lt_add_left hj _
        _ = (i+1)*n := (Nat.succ_mul i n).symm
        _ ≤ I*n := Nat.mul_le_mul_right n h
      exact Nat.lt_irrefl _ (Nat.lt_of_lt_of_le hlt h1)
    · exact h
    · exfalso
      have hge : I*n + n ≤ i*n + j := by
        calc I*n + n = (I+1)*n := (Nat.succ_mul I n).symm
        _ ≤ i*n := Nat.mul_le_mul_right n h
        _ ≤ i*n + j := Nat.le_add_right _ _
      exact Nat.lt_irrefl _ (Nat.lt_of_lt_of_le h2 hge)
  · rintro rfl
    exact ⟨Nat.le_add_right _ _, Nat.add_lt_add_left hj _⟩

theorem mult1_iloop_c (n I : ℕ) (s : MMState) (i j : ℕ) (hj : j < n) :
    (mult1_iloop n I s).c (i*n+j) =
      if i < I then s.c (i*n+j) + dotContrib s.a s.b n i j else s.c (i*n+j) := by
  induction I with
  | zero => rw [if_neg (Nat.not_lt_zero i)]; rfl
  | succ I ih =>
    have hab := mult1_iloop_ab n I s
    rw [mult1_iloop, mult1_jloop_c, hab.1, hab.2, ih]
    by_cases hI : i = I
    · subst hI
      rw [if_pos ((row_window n i i j hj).mpr rfl), if_neg (Nat.lt_irrefl i),
        if_pos (Nat.lt_succ_self i), Nat.add_sub_cancel_left]
    · rw [if_neg (fun hw => hI ((row_window n I i j hj).mp hw))]
      by_cases hiI : i < I
      · rw [if_pos hiI, if_pos (Nat.lt_succ_of_lt hiI)]
      · rw [if_neg hiI, if_neg (by omega)]

/-- What one `matrix_mult1` call does to each accumulator cell. -/
theorem mult1_c_eq (n : ℕ) (s : MMState) (i j : ℕ) (hi : i < n) (hj : j < n) :
    (matrix_mult1 n s).c (i*n+j) = s.c (i*n+j) + dotContrib s.a s.b n i j := by
  rw [matrix_mult1, mult1_iloop_c n n s i j hj, if_pos hi]

theorem mult2_kloop_eq (n i j K : ℕ) (s : MMState) :
    mult2_kloop n i j K s = mult1_kloop n i j K s := by
  induction K with
  | zero => rfl
  | succ K ih => simp only [mult2_kloop, mult1_kloop, ih]

theorem mult2_jloop_eq (n i J : ℕ) (s : MMState) :
    mult2_jloop n i J s = mult1_jloop n i J s := by
  induction J with
  | zero => rfl
  | succ J ih => rw [mult2_jloop, mult1_jloop, ih, mult2_kloop_eq]

theorem mult2_iloop_eq (n I : ℕ) (s : MMState) :
    mult2_iloop n I s = mult1_iloop n I s := by
  induction I with
  | zero => rfl
  | succ I ih => rw [mult2_iloop, mult1_iloop, ih, mult2_jloop_eq]

/-- `matrix_mult2` computes exactly the same state as `matrix_mult1` under
the sequential embedding. -/
theorem mult2_eq_mult1 (n : ℕ) (s : MMState) : matrix_mult2 n s = matrix_mult1 n s := by
  rw [matrix_mult2, matrix_mult1, mult2_iloop_eq]

theorem mult2_ab (n : ℕ) (s : MMState) :
    (matrix_mult2 n s).a = s.a ∧ (matrix_mult2 n s).b = s.b := by
  rw [mult2_eq_mult1]
  exact mult1_iloop_ab n n s

theorem mult2_c_eq (n : ℕ) (s : MMState) (i j : ℕ) (hi : i < n) (hj : j < n) :
    (matrix_mult2 n s).c (i*n+j) = s.c (i*n+j) + dotContrib s.a s.b n i j := by
  rw [mult2_eq_mult1]
  exact mult1_c_eq n s i j hi hj

/-- Skipping the zero entries of `a` does not change the exact sum. -/
theorem dotContribSp_eq (a b : Mat) (n i j : ℕ) :
    dotContribSp a b n i j = dotContrib a b n i j := by
  apply Finset.sum_congr rfl
  intro k _
  by_cases h : a (i*n+k) = 0
  · simp [h]
  · simp [h]

theorem sparse_kloop_ab (n i j K : ℕ) (s : MMState) :
    (sparse_kloop n i j K s).a = s.a ∧ (sparse_kloop n i j K s).b = s.b := by
  induction K with
  | zero => exact ⟨rfl, rfl⟩
  | succ K ih =>
    simp only [sparse_kloop]
    by_cases hg : (sparse_kloop n i j K s).a (i*n+K) ≠ 0
    · rw [if_pos hg]
      simpa [writeC] using ih
    · rw [if_neg hg]
      exact ih

theorem sparse_jloop_ab (n i J : ℕ) (s : MMState) :
    (sparse_jloop n i J s).a = s.a ∧ (sparse_jloop n i J s).b = s.b := by
  induction J with
  | zero => exact ⟨rfl, rfl⟩
  | succ J ih =>
    have h2 := sparse_kloop_ab n i J n (sparse_jloop n i J s)
    rw [sparse_jloop]
    exact ⟨h2.1.trans ih.1, h2.2.trans ih.2⟩

theorem sparse_iloop_ab (n I : ℕ) (s : MMState) :
    (sparse_iloop n I s).a = s.a ∧ (sparse_iloop n I s).b = s.b := by
  induction I with
  | zero => exact ⟨rfl, rfl⟩
  | succ I ih =>
    have h2 := sparse_jloop_ab n I n (sparse_iloop n I s)
    rw [sparse_iloop]
    exact ⟨h2.1.trans ih.1, h2.2.trans ih.2⟩

theorem sparse_kloop_c (n i j K : ℕ) (s : MMState) (t : ℕ) :
    (sparse_kloop n i j K s).c t =
      if t = i*n+j then
        s.c t + (Finset.range K).sum
          (fun k => if s.a (i*n+k) ≠ 0 then s.a (i*n+k) * s.b (k*n+j) else 0)
      else s.c t := by
  induction K generalizing t with
  | zero => simp [sparse_kloop]
  | succ K ih =>
    have hab := sparse_kloop_ab n i j K s
    simp only [sparse_kloop]
    rw [hab.1]
    by_cases hg : s.a (i*n+K) ≠ 0
    · rw [if_pos hg]
      simp only [writeC]
      rw [hab.2]
      by_cases h : t = i*n+j
      · subst h
        rw [if_pos rfl, if_pos rfl, ih, if_pos rfl, Finset.sum_range_succ,
          if_pos hg, add_assoc]
      · rw [if_neg h, if_neg h, ih, if_neg h]
    · rw [if_neg hg, ih]
      by_cases h : t = i*n+j
      · subst h
        rw [if_pos rfl, if_pos rfl, Finset.sum_range_succ, if_neg hg, add_zero]
      · rw [if_neg h, if_neg h]

theorem sparse_jloop_c (n i J : ℕ) (s : MMState) (t : ℕ) :
    (sparse_jloop n i J s).c t =
      if i*n ≤ t ∧ t < i*n + J then
        s.c t + dotContribSp s.a s.b n i (t - i*n)
      else s.c t := by
  induction J generalizing t with
  | zero =>
    rw [if_neg (fun h => absurd h.2 (Nat.not_lt.mpr h.1))]
    rfl
  | succ J ih =>
    have hab := sparse_jloop_ab n i J s
    rw [sparse_jloop, sparse_kloop_c, hab.1, hab.2]
    by_cases ht : t = i*n + J
    · subst ht
      rw [if_pos rfl, ih, if_neg (fun h => Nat.lt_irrefl _ h.2),
        if_pos (show i*n ≤ i*n+J ∧ i*n+J < i*n+(J+1) from ⟨Nat.le_add_right _ _, by omega⟩),
        Nat.add_sub_cancel_left]
      rfl
    · rw [if_neg ht, ih]
      by_cases h2 : i*n ≤ t ∧ t < i*n + J
      · rw [if_pos h2, if_pos ⟨h2.1, by omega⟩]
      · rw [if_neg h2, if_neg (by omega)]

theorem sparse_iloop_c (n I : ℕ) (s : MMState) (i j : ℕ) (hj : j < n) :
    (sparse_iloop n I s).c (i*n+j) =
      if i < I then s.c (i*n+j) + dotContribSp s.a s.b n i j else s.c (i*n+j) := by
  induction I with
  | zero => rw [if_neg (Nat.not_lt_zero i)] ; rfl
  | succ I ih =>
    have hab := sparse_iloop_ab n I s
    rw [sparse_iloop, sparse_jloop_c, hab.1, hab.2, ih]
    by_cases hI : i = I
    · subst hI
      rw [if_pos ((row_window n i i j hj).mpr rfl), if_neg (Nat.lt_irrefl i),
        if_pos (Nat.lt_succ_self i), Nat.add_sub_cancel_left]
    · rw [if_neg (fun hw => hI ((row_window n I i j hj).mp hw))]
      by_cases hiI : i < I
      · rw [if_pos hiI, if_pos (Nat.lt_succ_of_lt hiI)]
      · rw [if_neg hiI, if_neg (by omega)]

/-- What one `sparsematrix_mult` call does to each accumulator cell: it adds
the same dense contribution, because the skipped terms are exactly zero. -/
theorem sparse_c_eq (n : ℕ) (s : MMState) (i j : ℕ) (hi : i < n) (hj : j < n) :
    (sparsematrix_mult n s).c (i*n+j) = s.c (i*n+j) + dotContrib s.a s.b n i j := by
  rw [sparsematrix_mult, sparse_iloop_c n n s i j hj, if_pos hi, dotContribSp_eq]

theorem mult1_ab (n : ℕ) (s : MMState) :
    (matrix_mult1 n s).a = s.a ∧ (matrix_mult1 n s).b = s.b :=
  mult1_iloop_ab n n s

theorem sparse_ab (n : ℕ) (s : MMState) :
    (sparsematrix_mult n s).a = s.a ∧ (sparsematrix_mult n s).b = s.b :=
  sparse_iloop_ab n n s

/-- C1: for every `n > 0`, all operand matrices `a`, `b` and every
(pre-existing, possibly non-zero) accumulator `c`, each of the three kernels
`matrix_mult1`, `matrix_mult2` and `sparsematrix_mult` returns with `c[i][j]`
equal to its prior value plus `Σ_{k<n} a[i][k]*b[k][j]`, for all `i, j < n`. -/
theorem claim_C1_kernels_accumulate (n i j : ℕ) (s : MMState)
    (hn : 0 < n) (hi : i < n) (hj : j < n) :
    (matrix_mult1 n s).c (i*n+j) = s.c (i*n+j) + dotContrib s.a s.b n i j
  ∧ (matrix_mult2 n s).c (i*n+j) = s.c (i*n+j) + dotContrib s.a s.b n i j
  ∧ (sparsematrix_mult n s).c (i*n+j) = s.c (i*n+j) + dotContrib s.a s.b n i j :=
  ⟨mult1_c_eq n s i j hi hj, mult2_c_eq n s i j hi hj, sparse_c_eq n s i j hi hj⟩

/-- Witness for C1 at `n = 1`, `i = j = 0`, a concrete state. -/
theorem claim_C1_witness :
    (matrix_mult1 1 wS).c (0*1+0) = wS.c (0*1+0) + dotContrib wS.a wS.b 1 0 0
  ∧ (matrix_mult2 1 wS).c (0*1+0) = wS.c (0*1+0) + dotContrib wS.a wS.b 1 0 0
  ∧ (sparsematrix_mult 1 wS).c (0*1+0) = wS.c (0*1+0) + dotContrib wS.a wS.b 1 0 0 :=
  claim_C1_kernels_accumulate 1 0 0 wS (by decide) (by decide) (by decide)

/-- C2: for every `n`, on identical operands and a zeroed accumulator the
three kernels produce equal output matrices (entrywise, exactly) under the
sequential embedding; in particular the sparse kernel's skipping of
multiply-accumulates for `a[i][k] == 0` never changes the result. -/
theorem claim_C2_kernels_agree (n : ℕ) (s : MMState) (hc : ∀ t, s.c t = 0)
    (i j : ℕ) (hi : i < n) (hj : j < n) :
    (matrix_mult1 n s).c (i*n+j) = (matrix_mult2 n s).c (i*n+j)
  ∧ (matrix_mult1 n s).c (i*n+j) = (sparsematrix_mult n s).c (i*n+j) := by
  rw [mult1_c_eq n s i j hi hj, mult2_c_eq n s i j hi hj, sparse_c_eq n s i j hi hj]
  exact ⟨rfl, rfl⟩

/-- Witness for C2 at `n = 1` with a concrete zero-accumulator state. -/
theorem claim_C2_witness :
    (matrix_mult1 1 wSz).c (0*1+0) = (matrix_mult2 1 wSz).c (0*1+0)
  ∧ (matrix_mult1 1 wSz).c (0*1+0) = (sparsematrix_mult 1 wSz).c (0*1+0) :=
  claim_C2_kernels_agree 1 wSz (fun _ => rfl) 0 0 (by decide) (by decide)

/-- C6: calling any kernel twice in succession on the same accumulator with
the same operands adds exactly twice the single-call contribution; repeated
invocation accumulates and is not idempotent. -/
theorem claim_C6_double_call (n i j : ℕ) (s : MMState)
    (hn : 0 < n) (hi : i < n) (hj : j < n) :
    (matrix_mult1 n (matrix_mult1 n s)).c (i*n+j)
      = s.c (i*n+j) + 2 * dotContrib s.a s.b n i j
  ∧ (matrix_mult2 n (matrix_mult2 n s)).c (i*n+j)
      = s.c (i*n+j) + 2 * dotContrib s.a s.b n i j
  ∧ (sparsematrix_mult n (sparsematrix_mult n s)).c (i*n+j)
      = s.c (i*n+j) + 2 * dotContrib s.a s.b n i j := by
  refine ⟨?_, ?_, ?_⟩
  · rw [mult1_c_eq n (matrix_mult1 n s) i j hi hj, (mult1_ab n s).1, (mult1_ab n s).2,
      mult1_c_eq n s i j hi hj]
    ring
  · rw [mult2_c_eq n (matrix_mult2 n s) i j hi hj, (mult2_ab n s).1, (mult2_ab n s).2,
      mult2_c_eq n s i j hi hj]
    ring
  · rw [sparse_c_eq n (sparsematrix_mult n s) i j hi hj, (sparse_ab n s).1, (sparse_ab n s).2,
      sparse_c_eq n s i j hi hj]
    ring

/-- Witness for C6 at `n = 1`, `i = j = 0`, a concrete state. -/
theorem claim_C6_witness :
    (matrix_mult1 1 (matrix_mult1 1 wS)).c (0*1+0)
      = wS.c (0*1+0) + 2 * dotContrib wS.a wS.b 1 0 0
  ∧ (matrix_mult2 1 (matrix_mult2 1 wS)).c (0*1+0)
      = wS.c (0*1+0) + 2 * dotContrib wS.a wS.b 1 0 0
  ∧ (sparsematrix_mult 1 (sparsematrix_mult 1 wS)).c (0*1+0)
      = wS.c (0*1+0) + 2 * dotContrib wS.a wS.b 1 0 0 :=
  claim_C6_double_call 1 0 0 wS (by decide) (by decide) (by decide)

/-- C7: every kernel call leaves the operand matrices `a` and `b` unchanged;
the accumulator `c` is the only matrix a kernel mutates. -/
theorem claim_C7_operands_unchanged (n : ℕ) (s : MMState) :
    ((matrix_mult1 n s).a = s.a ∧ (matrix_mult1 n s).b = s.b)
  ∧ ((matrix_mult2 n s).a = s.a ∧ (matrix_mult2 n s).b = s.b)
  ∧ ((sparsematrix_mult n s).a = s.a ∧ (sparsematrix_mult n s).b = s.b) :=
  ⟨mult1_ab n s, mult2_ab n s, sparse_ab n s⟩

/-! Pointwise characterization of the initializers. -/

theorem minit_row_spec (n i J : ℕ) (mr : Mat × RandState) :
    (∀ t, (minit_row n i J mr).1 t =
      if i*n ≤ t ∧ t < i*n + J then ((mr.2.g (mr.2.pos + (t - i*n)) : ℚ))/10 else mr.1 t)
  ∧ (minit_row n i J mr).2 = { g := mr.2.g, pos := mr.2.pos + J } := by
  induction J with
  | zero =>
    refine ⟨fun t => ?_, rfl⟩
    rw [if_neg (fun h => absurd h.2 (Nat.not_lt.mpr h.1))]
    rfl
  | succ J ih =>
    refine ⟨fun t => ?_, ?_⟩
    · show (if t = i*n+J then ((rand (minit_row n i J mr).2).1 : ℚ)/10
            else (minit_row n i J mr).1 t) = _
      rw [ih.2]
      by_cases ht : t = i*n+J
      · subst ht
        rw [if_pos rfl,
          if_pos (show i*n ≤ i*n+J ∧ i*n+J < i*n+(J+1) from ⟨Nat.le_add_right _ _, by omega⟩),
          Nat.add_sub_cancel_left]
        rfl
      · rw [if_neg ht, ih.1]
        by_cases h2 : i*n ≤ t ∧ t < i*n + J
        · rw [if_pos h2, if_pos ⟨h2.1, by omega⟩]
        · rw [if_neg h2, if_neg (by omega)]
    · show (rand (minit_row n i J mr).2).2 = _
      rw [ih.2]
      rfl

theorem minit_rows_spec (n : ℕ) : ∀ cnt i mr,
    (∀ t, (minit_rows n i cnt mr).1 t =
      if i*n ≤ t ∧ t < i*n + cnt*n then ((mr.2.g (mr.2.pos + (t - i*n)) : ℚ))/10 else mr.1 t)
  ∧ (minit_rows n i cnt mr).2 = { g := mr.2.g, pos := mr.2.pos + cnt*n } := by
  intro cnt
  induction cnt with
  | zero =>
    intro i mr
    refine ⟨fun t => ?_, ?_⟩
    · rw [if_neg (by rw [Nat.zero_mul]; omega)]
      rfl
    · show mr.2 = _
      rw [Nat.zero_mul]
      rfl
  | succ cnt ih =>
    intro i mr
    have hrow := minit_row_spec n i n mr
    refine ⟨fun t => ?_, ?_⟩
    · rw [minit_rows, (ih (i+1) (minit_row n i n mr)).1 t, hrow.2]
      dsimp only
      rw [Nat.succ_mul i n, Nat.succ_mul cnt n]
      by_cases h1 : i*n + n ≤ t ∧ t < i*n + n + cnt*n
      · rw [if_pos h1, if_pos (show i*n ≤ t ∧ t < i*n + (cnt*n + n) from by omega)]
        have harg : mr.2.pos + n + (t - (i*n + n)) = mr.2.pos + (t - i*n) := by omega
        rw [harg]
      · rw [if_neg h1, hrow.1 t]
        by_cases h2 : i*n ≤ t ∧ t < i*n + n
        · rw [if_pos h2, if_pos (show i*n ≤ t ∧ t < i*n + (cnt*n + n) from by omega)]
        · rw [if_neg h2, if_neg (by omega)]
    · rw [minit_rows, (ih (i+1) (minit_row n i n mr)).2, hrow.2]
      dsimp only
      have harg : mr.2.pos + n + cnt*n = mr.2.pos + (cnt+1)*n := by
        rw [Nat.succ_mul]
        omega
      rw [harg]

theorem matrix_init_spec (n : ℕ) (mr : Mat × RandState) :
    (∀ t, t < n*n → (matrix_init n mr).1 t = ((mr.2.g (mr.2.pos + t) : ℚ))/10)
  ∧ (∀ t, n*n ≤ t → (matrix_init n mr).1 t = mr.1 t)
  ∧ (matrix_init n mr).2 = { g := mr.2.g, pos := mr.2.pos + n*n } := by
  have h := minit_rows_spec n n 0 mr
  refine ⟨fun t ht => ?_, fun t ht => ?_, ?_⟩
  · rw [matrix_init, h.1 t,
      if_pos (show 0*n ≤ t ∧ t < 0*n + n*n from by rw [Nat.zero_mul]; omega)]
    have harg : t - 0*n = t := by rw [Nat.zero_mul]; omega
    rw [harg]
  · rw [matrix_init, h.1 t, if_neg (by rw [Nat.zero_mul]; omega)]
  · rw [matrix_init, h.2]

theorem sinit_row_frame (n i J : ℕ) (mr : Mat × RandState) (t : ℕ) (ht : t < i*n) :
    (sinit_row n i J mr).1 t = mr.1 t := by
  induction J with
  | zero => rfl
  | succ J ih =>
    have hne : t ≠ i*n + J := by omega
    show (sinit_row n i (J+1) mr).1 t = mr.1 t
    rw [sinit_row]
    by_cases hg : n/2 < i
    · rw [if_pos hg]
      by_cases hz : (rand (sinit_row n i J mr).2).1 % 100 ≤ SPARSE_FACTOR
      · rw [if_pos hz]
        show (if t = i*n+J then (0:ℚ) else (sinit_row n i J mr).1 t) = mr.1 t
        rw [if_neg hne, ih]
      · rw [if_neg hz]
        show (if t = i*n+J then ((rand (rand (sinit_row n i J mr).2).2).1 : ℚ)/10
              else (sinit_row n i J mr).1 t) = mr.1 t
        rw [if_neg hne, ih]
    · rw [if_neg hg]
      show (if t = i*n+J then ((rand (sinit_row n i J mr).2).1 : ℚ)/10
            else (sinit_row n i J mr).1 t) = mr.1 t
      rw [if_neg hne, ih]

theorem sinit_rows_frame (n : ℕ) : ∀ cnt i mr t, t < i*n →
    (sinit_rows n i cnt mr).1 t = mr.1 t := by
  intro cnt
  induction cnt with
  | zero => intro i mr t ht; rfl
  | succ cnt ih =>
    intro i mr t ht
    rw [sinit_rows, ih (i+1) _ t (by rw [Nat.succ_mul]; omega)]
    exact sinit_row_frame n i n mr t ht

theorem sinit_row_dense (n i : ℕ) (hi : ¬ n/2 < i) : ∀ J mr,
    sinit_row n i J mr = minit_row n i J mr := by
  intro J
  induction J with
  | zero => intro mr; rfl
  | succ J ih =>
    intro mr
    simp only [sinit_row, minit_row, if_neg hi, ih]

theorem sinit_rows_dense (n : ℕ) : ∀ cnt i, i + cnt ≤ n/2 + 1 → ∀ mr,
    sinit_rows n i cnt mr = minit_rows n i cnt mr := by
  intro cnt
  induction cnt with
  | zero => intro i h mr; rfl
  | succ cnt ih =>
    intro i h mr
    rw [sinit_rows, minit_rows, sinit_row_dense n i (by omega), ih (i+1) (by omega)]

theorem sinit_rows_split (n d2 : ℕ) : ∀ d1 i mr,
    sinit_rows n i (d1 + d2) mr = sinit_rows n (i + d1) d2 (sinit_rows n i d1 mr) := by
  intro d1
  induction d1 with
  | zero =>
    intro i mr
    rw [Nat.zero_add, Nat.add_zero]
    rfl
  | succ d1 ih =>
    intro i mr
    have h1 : d1 + 1 + d2 = (d1 + d2) + 1 := by omega
    have h2 : i + (d1 + 1) = (i + 1) + d1 := by omega
    rw [h1, h2, sinit_rows, sinit_rows, ih (i+1)]

theorem idx_lt (n i j : ℕ) (hi : i < n) (hj : j < n) : i*n + j < n*n := by
  have h1 : i*n + j < (i+1)*n := by rw [Nat.succ_mul]; omega
  exact Nat.lt_of_lt_of_le h1 (Nat.mul_le_mul_right n hi)

/-- C8: for every `n > 0`, on every row `i <= n/2` the sparse initializer
behaves exactly like the dense one: each such cell equals the corresponding
`matrix_init` cell, which is the plain value draw `rand()/10.0` taken at the
same stream position; no cell of those rows is forced to zero by the
sparsity rule. -/
theorem claim_C8_dense_rows_match (n i j : ℕ) (mr : Mat × RandState)
    (hn : 0 < n) (hi : i ≤ n/2) (hj : j < n) :
    (sparsematrix_init n mr).1 (i*n+j) = (matrix_init n mr).1 (i*n+j)
  ∧ (sparsematrix_init n mr).1 (i*n+j) = ((mr.2.g (mr.2.pos + (i*n+j)) : ℚ))/10 := by
  have hin : i < n := by omega
  have hiD : i + 1 ≤ min n (n/2+1) := le_min (by omega) (by omega)
  have ht : i*n + j < (min n (n/2+1))*n := by
    have h1 : i*n + j < (i+1)*n := by rw [Nat.succ_mul]; omega
    exact Nat.lt_of_lt_of_le h1 (Nat.mul_le_mul_right n hiD)
  have htn : i*n + j < n*n :=
    Nat.lt_of_lt_of_le ht (Nat.mul_le_mul_right n (min_le_left _ _))
  have hDsum : min n (n/2+1) + (n - min n (n/2+1)) = n :=
    Nat.add_sub_cancel' (min_le_left _ _)
  have hsparse : (sparsematrix_init n mr).1 (i*n+j)
      = (minit_rows n 0 (min n (n/2+1)) mr).1 (i*n+j) := by
    rw [sparsematrix_init,
      show sinit_rows n 0 n mr
          = sinit_rows n (0 + min n (n/2+1)) (n - min n (n/2+1))
              (sinit_rows n 0 (min n (n/2+1)) mr) from by
        rw [← sinit_rows_split n (n - min n (n/2+1)) (min n (n/2+1)) 0 mr, hDsum],
      sinit_rows_frame n (n - min n (n/2+1)) (0 + min n (n/2+1)) _ (i*n+j)
        (by rw [Nat.zero_add]; exact ht),
      sinit_rows_dense n (min n (n/2+1)) 0 (by rw [Nat.zero_add]; exact min_le_right _ _) mr]
  have hdval : (minit_rows n 0 (min n (n/2+1)) mr).1 (i*n+j)
      = ((mr.2.g (mr.2.pos + (i*n+j)) : ℚ))/10 := by
    rw [(minit_rows_spec n (min n (n/2+1)) 0 mr).1 (i*n+j),
      if_pos (show 0*n ≤ i*n+j ∧ i*n+j < 0*n + (min n (n/2+1))*n from by
        rw [Nat.zero_mul]; omega)]
    have harg : i*n+j - 0*n = i*n+j := by rw [Nat.zero_mul]; omega
    rw [harg]
  have hdense := (matrix_init_spec n mr).1 (i*n+j) htn
  exact ⟨by rw [hsparse, hdval, hdense], by rw [hsparse, hdval]⟩

/-- Witness for C8 at `n = 1`, row `i = 0 <= 1/2`, `j = 0`. -/
theorem claim_C8_witness :
    (sparsematrix_init 1 wMR1).1 (0*1+0) = (matrix_init 1 wMR1).1 (0*1+0)
  ∧ (sparsematrix_init 1 wMR1).1 (0*1+0) = ((wMR1.2.g (wMR1.2.pos + (0*1+0)) : ℚ))/10 :=
  claim_C8_dense_rows_match 1 0 0 wMR1 (by decide) (by decide) (by decide)

/-- C3 (amended): in `sparsematrix_init`, a cell in a row `i > n/2` is forced
to zero exactly when its per-cell decision draw `d` satisfies
`d % 100 <= SPARSE_FACTOR`, consuming one draw; otherwise the cell is set to
the next, fresh draw divided by 10, consuming two draws.  Exactly 81 of the
100 equally likely residues (namely `0..80`) force the zero, i.e. the zero
probability is 81%, not 80%. -/
theorem claim_C3_sparse_zero_rate (n i j : ℕ) (mr : Mat × RandState) (hi : n/2 < i) :
    ((sinit_row n i j mr).2.g (sinit_row n i j mr).2.pos % 100 ≤ SPARSE_FACTOR →
        (sinit_row n i (j+1) mr).1 (i*n+j) = 0
      ∧ (sinit_row n i (j+1) mr).2
          = { g := (sinit_row n i j mr).2.g, pos := (sinit_row n i j mr).2.pos + 1 })
  ∧ (¬ (sinit_row n i j mr).2.g (sinit_row n i j mr).2.pos % 100 ≤ SPARSE_FACTOR →
        (sinit_row n i (j+1) mr).1 (i*n+j)
          = (((sinit_row n i j mr).2.g ((sinit_row n i j mr).2.pos + 1) : ℚ))/10
      ∧ (sinit_row n i (j+1) mr).2
          = { g := (sinit_row n i j mr).2.g, pos := (sinit_row n i j mr).2.pos + 2 })
  ∧ ((Finset.range 100).filter (fun d => d % 100 ≤ SPARSE_FACTOR)).card = 81 := by
  refine ⟨fun hz => ⟨?_, ?_⟩, fun hz => ⟨?_, ?_⟩, by decide⟩
  · rw [sinit_row, if_pos hi]
    simp only [rand]
    rw [if_pos hz]
    simp
  · rw [sinit_row, if_pos hi]
    simp only [rand]
    rw [if_pos hz]
  · rw [sinit_row, if_pos hi]
    simp only [rand]
    rw [if_neg hz]
    simp
  · rw [sinit_row, if_pos hi]
    simp only [rand]
    rw [if_neg hz]

/-- Witness for C3 (amended) at `n = 3`, `i = 2 > 3/2`, `j = 0`. -/
theorem claim_C3_witness :
    ((sinit_row 3 2 0 wMR80).2.g (sinit_row 3 2 0 wMR80).2.pos % 100 ≤ SPARSE_FACTOR →
        (sinit_row 3 2 (0+1) wMR80).1 (2*3+0) = 0
      ∧ (sinit_row 3 2 (0+1) wMR80).2
          = { g := (sinit_row 3 2 0 wMR80).2.g, pos := (sinit_row 3 2 0 wMR80).2.pos + 1 })
  ∧ (¬ (sinit_row 3 2 0 wMR80).2.g (sinit_row 3 2 0 wMR80).2.pos % 100 ≤ SPARSE_FACTOR →
        (sinit_row 3 2 (0+1) wMR80).1 (2*3+0)
          = (((sinit_row 3 2 0 wMR80).2.g ((sinit_row 3 2 0 wMR80).2.pos + 1) : ℚ))/10
      ∧ (sinit_row 3 2 (0+1) wMR80).2
          = { g := (sinit_row 3 2 0 wMR80).2.g, pos := (sinit_row 3 2 0 wMR80).2.pos + 2 })
  ∧ ((Finset.range 100).filter (fun d => d % 100 ≤ SPARSE_FACTOR)).card = 81 :=
  claim_C3_sparse_zero_rate 3 2 0 wMR80 (by decide)

/-- C3 counterexample: the claim says exactly 80 of every 100 equally likely
residues of the decision draw force a zero.  In the code the test is
`(rand()%100) <= SPARSE_FACTOR`, so the boundary residue 80 also forces a
zero — with `n = 3`, row `i = 2 > 3/2` and a draw of residue 80 the cell is
zeroed — and the number of forcing residues is 81, not 80. -/
theorem claim_C3_counterexample :
    (sinit_row 3 2 1 wMR80).1 (2*3+0) = 0
  ∧ ((Finset.range 100).filter (fun d => d % 100 ≤ SPARSE_FACTOR)).card ≠ 80 := by
  exact ⟨by decide, by decide⟩

/-! The benchmark driver and the command line. -/

/-- The events of one full benchmark loop: six invocations (iterations 0..5)
and a timing line for each iteration except 0. -/
theorem benchLoop_events (k : MMState → MMState) (lbl : String) (s : MMState) :
    (benchLoop k lbl (NITERATIONS+1) s).2 =
      [Event.invoke lbl 0,
       Event.invoke lbl 1, Event.printLine lbl 1,
       Event.invoke lbl 2, Event.printLine lbl 2,
       Event.invoke lbl 3, Event.printLine lbl 3,
       Event.invoke lbl 4, Event.printLine lbl 4,
       Event.invoke lbl 5, Event.printLine lbl 5] := by
  show (benchLoop k lbl 6 s).2 = _
  rw [benchLoop, benchLoop, benchLoop, benchLoop, benchLoop, benchLoop, benchLoop]
  rfl

theorem main_run_events (n : ℕ) (r : RandState) :
    (main_run n r).1 =
      (benchLoop (matrix_mult1 n) "mult1" (NITERATIONS+1) (bench1Start n r)).2
      ++ (benchLoop (matrix_mult2 n) "mult2" (NITERATIONS+1) (bench2Start n r)).2
      ++ (benchLoop (sparsematrix_mult n) "sparsemult" (NITERATIONS+1) (bench3Start n r)).2 :=
  rfl

/-- C5: the driver runs the kernels in the fixed order mult1, mult2,
sparsemult; each kernel is invoked `NITERATIONS + 1 = 6` times (iterations
0..5), and exactly 5 timing lines per kernel are printed, one for each
iteration 1..5 with that kernel's label, and never for iteration 0. -/
theorem claim_C5_driver_schedule (n : ℕ) (r : RandState) :
    printsOf (main_run n r).1 =
      [("mult1", 1), ("mult1", 2), ("mult1", 3), ("mult1", 4), ("mult1", 5),
       ("mult2", 1), ("mult2", 2), ("mult2", 3), ("mult2", 4), ("mult2", 5),
       ("sparsemult", 1), ("sparsemult", 2), ("sparsemult", 3),
       ("sparsemult", 4), ("sparsemult", 5)]
  ∧ invokesOf (main_run n r).1 =
      [("mult1", 0), ("mult1", 1), ("mult1", 2), ("mult1", 3), ("mult1", 4), ("mult1", 5),
       ("mult2", 0), ("mult2", 1), ("mult2", 2), ("mult2", 3), ("mult2", 4), ("mult2", 5),
       ("sparsemult", 0), ("sparsemult", 1), ("sparsemult", 2), ("sparsemult", 3),
       ("sparsemult", 4), ("sparsemult", 5)] := by
  rw [main_run_events, benchLoop_events, benchLoop_events, benchLoop_events]
  exact ⟨rfl, rfl⟩

/-- C4 (amended): with no argument the program prints usage and exits with
success status; but an argument that fails to parse as a positive decimal
integer (`atoi <= 0`) makes `assert(n > 0)` fail, so the process aborts
abnormally — it does not print usage and does not terminate successfully. -/
theorem claim_C4_usage_and_abort (r : RandState) (arg : List ℕ) (hbad : atoi arg ≤ 0) :
    mainProc none r = MainResult.usageExit
  ∧ exitStatus MainResult.usageExit = some EXIT_SUCCESS
  ∧ mainProc (some arg) r = MainResult.assertAbort
  ∧ exitStatus MainResult.assertAbort = none := by
  refine ⟨rfl, rfl, ?_, rfl⟩
  simp only [mainProc]
  rw [if_neg (by omega)]

/-- Witness for C4 (amended): the argument "x" (byte 120) parses to 0. -/
theorem claim_C4_witness :
    mainProc none wR = MainResult.usageExit
  ∧ exitStatus MainResult.usageExit = some EXIT_SUCCESS
  ∧ mainProc (some [120]) wR = MainResult.assertAbort
  ∧ exitStatus MainResult.assertAbort = none :=
  claim_C4_usage_and_abort wR [120] (by decide)

/-- C4 counterexample: the claim says a parse failure also prints usage and
terminates successfully; but on the argument "x" (byte 120, `atoi` = 0) the
program aborts on the failed assertion instead of the usage exit. -/
theorem claim_C4_counterexample :
    mainProc (some [120]) wR = MainResult.assertAbort
  ∧ MainResult.assertAbort ≠ MainResult.usageExit := by
  exact ⟨by decide, by decide⟩

theorem main_run_invoke_count (n : ℕ) (r : RandState) :
    (invokesOf (main_run n r).1).length = 18 := by
  rw [main_run_events, benchLoop_events, benchLoop_events, benchLoop_events]
  rfl

/-- C9: whenever the argument parses to a positive `n` (and allocations are
assumed to succeed, as the model does), the process runs all 18 kernel
invocations and its final exit status is `EXIT_FAILURE`, not success. -/
theorem claim_C9_exit_failure (arg : List ℕ) (r : RandState) (hpos : 0 < atoi arg) :
    mainProc (some arg) r
      = MainResult.finished (main_run (atoi arg).toNat r).1 EXIT_FAILURE
  ∧ exitStatus (mainProc (some arg) r) = some EXIT_FAILURE
  ∧ (invokesOf (main_run (atoi arg).toNat r).1).length = 18
  ∧ EXIT_FAILURE ≠ EXIT_SUCCESS := by
  have h : mainProc (some arg) r
      = MainResult.finished (main_run (atoi arg).toNat r).1 (main_run (atoi arg).toNat r).2 := by
    simp only [mainProc]
    rw [if_pos hpos]
  refine ⟨?_, ?_, main_run_invoke_count _ _, by decide⟩
  · rw [h]
    rfl
  · rw [h]
    rfl

/-- Witness for C9: the argument "4" (byte 52) parses to 4 > 0. -/
theorem claim_C9_witness :
    mainProc (some [52]) wR
      = MainResult.finished (main_run (atoi [52]).toNat wR).1 EXIT_FAILURE
  ∧ exitStatus (mainProc (some [52]) wR) = some EXIT_FAILURE
  ∧ (invokesOf (main_run (atoi [52]).toNat wR).1).length = 18
  ∧ EXIT_FAILURE ≠ EXIT_SUCCESS :=
  claim_C9_exit_failure [52] wR (by decide)

/-! Positivity of the accumulators throughout the benchmark loops (C10). -/

theorem matrix_init_entry_pos (n : ℕ) (m0 : Mat) (r : RandState)
    (hg : ∀ m, 0 < r.g m) (h0 : ∀ t, 0 ≤ m0 t) :
    (∀ t, 0 ≤ (matrix_init n (m0, r)).1 t)
  ∧ (∀ i j, i < n → j < n → 0 < (matrix_init n (m0, r)).1 (i*n+j)) := by
  have hs := matrix_init_spec n (m0, r)
  constructor
  · intro t
    by_cases ht : t < n*n
    · rw [hs.1 t ht]
      exact div_nonneg (Nat.cast_nonneg _) (by norm_num)
    · rw [hs.2.1 t (Nat.le_of_not_lt ht)]
      exact h0 t
  · intro i j hi hj
    rw [hs.1 _ (idx_lt n i j hi hj)]
    exact div_pos (by exact_mod_cast hg _) (by norm_num)

theorem matrix_init_g_pos (n : ℕ) (mr : Mat × RandState) (hg : ∀ m, 0 < mr.2.g m) :
    ∀ m, 0 < (matrix_init n mr).2.g m := by
  intro m
  rw [(matrix_init_spec n mr).2.2]
  exact hg m

theorem sinit_row_nonneg (n i J : ℕ) (mr : Mat × RandState) (h0 : ∀ t, 0 ≤ mr.1 t) :
    ∀ t, 0 ≤ (sinit_row n i J mr).1 t := by
  induction J with
  | zero => exact h0
  | succ J ih =>
    intro t
    rw [sinit_row]
    by_cases hg : n/2 < i
    · rw [if_pos hg]
      simp only [rand]
      by_cases hz : (sinit_row n i J mr).2.g (sinit_row n i J mr).2.pos % 100 ≤ SPARSE_FACTOR
      · rw [if_pos hz]
        show 0 ≤ if t = i*n+J then (0:ℚ) else (sinit_row n i J mr).1 t
        by_cases ht : t = i*n+J
        · rw [if_pos ht]
        · rw [if_neg ht]
          exact ih t
      · rw [if_neg hz]
        show 0 ≤ if t = i*n+J then
            (((sinit_row n i J mr).2.g ((sinit_row n i J mr).2.pos + 1) : ℚ))/10
          else (sinit_row n i J mr).1 t
        by_cases ht : t = i*n+J
        · rw [if_pos ht]
          exact div_nonneg (Nat.cast_nonneg _) (by norm_num)
        · rw [if_neg ht]
          exact ih t
    · rw [if_neg hg]
      simp only [rand]
      show 0 ≤ if t = i*n+J then
          (((sinit_row n i J mr).2.g (sinit_row n i J mr).2.pos : ℚ))/10
        else (sinit_row n i J mr).1 t
      by_cases ht : t = i*n+J
      · rw [if_pos ht]
        exact div_nonneg (Nat.cast_nonneg _) (by norm_num)
      · rw [if_neg ht]
        exact ih t

theorem sinit_rows_nonneg (n : ℕ) : ∀ cnt i mr, (∀ t, 0 ≤ mr.1 t) →
    ∀ t, 0 ≤ (sinit_rows n i cnt mr).1 t := by
  intro cnt
  induction cnt with
  | zero => intro i mr h0; exact h0
  | succ cnt ih =>
    intro i mr h0
    rw [sinit_rows]
    exact ih (i+1) _ (sinit_row_nonneg n i n mr h0)

theorem mult1_pos_step (n : ℕ) (hn : 0 < n) (s : MMState)
    (ha : ∀ t, 0 ≤ s.a t) (hb : ∀ t, 0 ≤ s.b t)
    (hc : ∀ i j, i < n → j < n → 0 < s.c (i*n+j)) :
    ∀ i j, i < n → j < n → 0 < (matrix_mult1 n s).c (i*n+j) := by
  intro i j hi hj
  rw [mult1_c_eq n s i j hi hj]
  have hd : 0 ≤ dotContrib s.a s.b n i j :=
    Finset.sum_nonneg (fun k _ => mul_nonneg (ha _) (hb _))
  have hcp := hc i j hi hj
  linarith

theorem mult2_pos_step (n : ℕ) (hn : 0 < n) (s : MMState)
    (ha : ∀ t, 0 ≤ s.a t) (hb : ∀ t, 0 ≤ s.b t)
    (hc : ∀ i j, i < n → j < n → 0 < s.c (i*n+j)) :
    ∀ i j, i < n → j < n → 0 < (matrix_mult2 n s).c (i*n+j) := by
  intro i j hi hj
  rw [mult2_eq_mult1]
  exact mult1_pos_step n hn s ha hb hc i j hi hj

theorem sparse_pos_step (n : ℕ) (hn : 0 < n) (s : MMState)
    (ha : ∀ t, 0 ≤ s.a t) (hb : ∀ t, 0 ≤ s.b t)
    (hc : ∀ i j, i < n → j < n → 0 < s.c (i*n+j)) :
    ∀ i j, i < n → j < n → 0 < (sparsematrix_mult n s).c (i*n+j) := by
  intro i j hi hj
  rw [sparse_c_eq n s i j hi hj]
  have hd : 0 ≤ dotContrib s.a s.b n i j :=
    Finset.sum_nonneg (fun k _ => mul_nonneg (ha _) (hb _))
  have hcp := hc i j hi hj
  linarith

theorem benchLoop_state (k : MMState → MMState) (lbl : String) (cnt : ℕ) (s : MMState) :
    (benchLoop k lbl (cnt+1) s).1 = k ((benchLoop k lbl cnt s).1) := rfl

theorem benchLoop_inv (n : ℕ) (k : MMState → MMState) (lbl : String)
    (hab : ∀ s, (k s).a = s.a ∧ (k s).b = s.b)
    (hpos : ∀ s, (∀ t, 0 ≤ s.a t) → (∀ t, 0 ≤ s.b t) →
      (∀ i j, i < n → j < n → 0 < s.c (i*n+j)) →
      ∀ i j, i < n → j < n → 0 < (k s).c (i*n+j))
    (s : MMState) (ha : ∀ t, 0 ≤ s.a t) (hb : ∀ t, 0 ≤ s.b t)
    (hc : ∀ i j, i < n → j < n → 0 < s.c (i*n+j)) :
    ∀ cnt, ((benchLoop k lbl cnt s).1.a = s.a ∧ (benchLoop k lbl cnt s).1.b = s.b)
      ∧ ∀ i j, i < n → j < n → 0 < (benchLoop k lbl cnt s).1.c (i*n+j) := by
  intro cnt
  induction cnt with
  | zero => exact ⟨⟨rfl, rfl⟩, hc⟩
  | succ cnt ih =>
    rw [benchLoop_state]
    refine ⟨⟨(hab _).1.trans ih.1.1, (hab _).2.trans ih.1.2⟩, ?_⟩
    apply hpos
    · intro t
      rw [ih.1.1]
      exact ha t
    · intro t
      rw [ih.1.2]
      exact hb t
    · exact ih.2

/-- C10: before any benchmark loop runs, `main` fills the accumulators `c1`,
`c2`, `c3` with `matrix_init` pseudo-random values rather than leaving them
zero.  Provided every stream draw is positive, every accumulator entry is
strictly positive (hence non-zero) at entry to every iteration of every
benchmark loop — including the warm-up iteration 0 — so no benchmarked kernel
invocation computes a plain matrix product from a zeroed accumulator. -/
theorem claim_C10_accumulators_start_random (n : ℕ) (r : RandState)
    (hn : 0 < n) (hg : ∀ m, 0 < r.g m) (cnt i j : ℕ) (hi : i < n) (hj : j < n) :
    0 < (benchLoop (matrix_mult1 n) "mult1" cnt (bench1Start n r)).1.c (i*n+j)
  ∧ 0 < (benchLoop (matrix_mult2 n) "mult2" cnt (bench2Start n r)).1.c (i*n+j)
  ∧ 0 < (benchLoop (sparsematrix_mult n) "sparsemult" cnt (bench3Start n r)).1.c (i*n+j) := by
  have h0 : ∀ t, (0:ℚ) ≤ matrix_create n t := fun t => le_refl 0
  have h0s : ∀ t, (0:ℚ) ≤ sparsematrix_create n t := fun t => le_refl 0
  let r1 : RandState := (matrix_init n (matrix_create n, r)).2
  let r2 : RandState := (matrix_init n (matrix_create n, r1)).2
  let r3 : RandState := (matrix_init n (matrix_create n, r2)).2
  let r4 : RandState := (matrix_init n (matrix_create n, r3)).2
  let r5 : RandState := (matrix_init n (matrix_create n, r4)).2
  have hg1 : ∀ m, 0 < r1.g m := matrix_init_g_pos n (matrix_create n, r) hg
  have hg2 : ∀ m, 0 < r2.g m := matrix_init_g_pos n (matrix_create n, r1) hg1
  have hg3 : ∀ m, 0 < r3.g m := matrix_init_g_pos n (matrix_create n, r2) hg2
  have hg4 : ∀ m, 0 < r4.g m := matrix_init_g_pos n (matrix_create n, r3) hg3
  have hg5 : ∀ m, 0 < r5.g m := matrix_init_g_pos n (matrix_create n, r4) hg4
  have hA := matrix_init_entry_pos n (matrix_create n) r hg h0
  have hB := matrix_init_entry_pos n (matrix_create n) r1 hg1 h0
  have hC1 := matrix_init_entry_pos n (matrix_create n) r2 hg2 h0
  have hC2 := matrix_init_entry_pos n (matrix_create n) r3 hg3 h0
  have hC3 := matrix_init_entry_pos n (matrix_create n) r4 hg4 h0
  have hA2 : ∀ t, 0 ≤ (sparsematrix_init n (sparsematrix_create n, r5)).1 t :=
    sinit_rows_nonneg n n 0 (sparsematrix_create n, r5) h0s
  refine ⟨?_, ?_, ?_⟩
  · exact (benchLoop_inv n (matrix_mult1 n) "mult1" (mult1_ab n) (mult1_pos_step n hn)
      (bench1Start n r) hA.1 hB.1 hC1.2 cnt).2 i j hi hj
  · exact (benchLoop_inv n (matrix_mult2 n) "mult2" (mult2_ab n) (mult2_pos_step n hn)
      (bench2Start n r) hA.1 hB.1 hC2.2 cnt).2 i j hi hj
  · exact (benchLoop_inv n (sparsematrix_mult n) "sparsemult" (sparse_ab n) (sparse_pos_step n hn)
      (bench3Start n r) hA2 hB.1 hC3.2 cnt).2 i j hi hj

/-- Witness for C10 at `n = 1`, the all-ones stream, before iteration 0. -/
theorem claim_C10_witness :
    0 < (benchLoop (matrix_mult1 1) "mult1" 0 (bench1Start 1 wR)).1.c (0*1+0)
  ∧ 0 < (benchLoop (matrix_mult2 1) "mult2" 0 (bench2Start 1 wR)).1.c (0*1+0)
  ∧ 0 < (benchLoop (sparsematrix_mult 1) "sparsemult" 0 (bench3Start 1 wR)).1.c (0*1+0) :=
  claim_C10_accumulators_start_random 1 wR (by decide) (fun _ => Nat.one_pos)
    0 0 0 (by decide) (by decide)

end MM

